import Mathlib

/-!
Shallow embedding of `backend/app.py` (review-scraping service).

Strings are modelled as `List Char`.  Python `float` arithmetic is idealized
as exact rational arithmetic (`ℚ`), and digit handling models the ASCII
fragment of Python's regex \d and of float() parsing.  Theorems quantified
over text inputs therefore restrict their domains to where this embedding is
exact: ASCII text (plus the star glyph where relevant), and decimal numerals
of at most 15 digits, on which CPython doubles are exact and overflow-free
and rounding of the computed double agrees with rounding of the exact
rational.  Python's `round` on floats (round half to even, "banker's
rounding") is modelled by `pyRound`.
-/

unseal Rat.add Rat.sub Rat.mul Rat.inv

/-- Decidable equality of `Except` results, used to evaluate the embedding on
concrete inputs. -/
instance {ε α : Type} [DecidableEq ε] [DecidableEq α] : DecidableEq (Except ε α) :=
  fun x y =>
    match x, y with
    | Except.error a, Except.error b =>
      if h : a = b then isTrue (h ▸ rfl)
      else isFalse fun hh => h (Except.error.inj hh)
    | Except.ok a, Except.ok b =>
      if h : a = b then isTrue (h ▸ rfl)
      else isFalse fun hh => h (Except.ok.inj hh)
    | Except.error _, Except.ok _ => isFalse fun hh => nomatch hh
    | Except.ok _, Except.error _ => isFalse fun hh => nomatch hh

/-- Strings of the embedded program. -/
abbrev Str := List Char

/-- ASCII decimal digit: the fragment of Python's regex `\d` and of
`float()` digit parsing that the embedding models.  Python's `\d` also
matches non-ASCII Unicode decimal digits (e.g. Arabic-Indic ones); those are
outside the modelled fragment, so every theorem quantified over text inputs
restricts its domain to ASCII characters (plus the star glyph where the
claim needs it). -/
def isDigitC (c : Char) : Bool := 48 ≤ c.toNat && c.toNat ≤ 57

/-- Python whitespace as used by `str.strip()` and the regex class `\s`
(space, tab, newline, carriage return, vertical tab, form feed).  The ASCII
separators 0x1c-0x1f and the non-ASCII whitespace that Python also strips
are not modelled; they occur in no theorem's domain. -/
def isPySpace (c : Char) : Bool :=
  c.toNat = 32 || c.toNat = 9 || c.toNat = 10 || c.toNat = 13 ||
    c.toNat = 11 || c.toNat = 12

/-- Python `str.lower` on one character (ASCII fragment). -/
def pyLowerChar (c : Char) : Char :=
  if 65 ≤ c.toNat ∧ c.toNat ≤ 90 then Char.ofNat (c.toNat + 32) else c

/-- Python `str.lower` (ASCII fragment). -/
def pyLower (s : Str) : Str := s.map pyLowerChar

/-- Python `str.strip()`: drop leading and trailing whitespace. -/
def pyStrip (s : Str) : Str :=
  ((s.dropWhile isPySpace).reverse.dropWhile isPySpace).reverse

/-- Value of a string of decimal digits (`int`-style, most significant first). -/
def natVal (s : Str) : ℕ := s.foldl (fun a c => 10 * a + (c.toNat - 48)) 0

/-- Value of the decimal literal `ip "." fp` as produced by the regex
`\d+\.?\d*` and read back by Python `float` (idealized as a rational). -/
def efnVal (ip fp : Str) : ℚ :=
  (natVal ip : ℚ) + (natVal fp : ℚ) / (10 : ℚ) ^ fp.length

/-- The helper `extract_first_number` from `parse_rating`: first match of the
regex `\d+\.?\d*` in the text, converted by `float`, or `None`.  Digits are
the ASCII fragment (`isDigitC`) and the float value is idealized as the
exact rational, with no overflow to `inf`; theorems that depend on the value
therefore bound their numerals to 15 digits, where CPython doubles are exact
and the subsequent rounding agrees with the exact-rational result. -/
def extract_first_number : Str → Option ℚ
  | [] => none
  | c :: rest =>
    if isDigitC c then
      let ip := List.takeWhile isDigitC (c :: rest)
      let r1 := List.dropWhile isDigitC (c :: rest)
      let fp := if r1.head? = some '.' then r1.tail.takeWhile isDigitC else []
      some (efnVal ip fp)
    else extract_first_number rest

/-- Python substring containment `pat in s`. -/
def containsSub (pat : Str) : Str → Bool
  | [] => pat.isEmpty
  | c :: rest => pat.isPrefixOf (c :: rest) || containsSub pat rest

/-- Worker for `pySplit`, structurally recursive on a fuel argument so that it
evaluates by kernel reduction; the fuel never runs out when it starts at the
length of the input (see `pySplitGo_congr`). -/
def pySplitGo (sh : Char) (st : Str) : ℕ → Str → List Str
  | _, [] => [[]]
  | 0, d :: rest => [d :: rest]
  | fuel + 1, d :: rest =>
    if (sh :: st).isPrefixOf (d :: rest) then
      [] :: pySplitGo sh st fuel (rest.drop st.length)
    else
      match pySplitGo sh st fuel rest with
      | p :: ps => (d :: p) :: ps
      | [] => [[d]]

/-- Python `str.split(sep)` for a non-empty separator `sh :: st`,
scanning left to right, non-overlapping. -/
def pySplit (sh : Char) (st : Str) (s : Str) : List Str :=
  pySplitGo sh st s.length s

/-- Floor of a rational, written with `Int.fdiv` so that it evaluates by
kernel reduction (the denominator of a `ℚ` is positive). -/
def ratFloor (q : ℚ) : ℤ := Int.fdiv q.num (q.den : ℤ)

/-- Python `round` on a (finite) float value, idealized on ℚ:
round to nearest integer, ties to even. -/
def pyRound (q : ℚ) : ℤ :=
  if q - ratFloor q < 1 / 2 then ratFloor q
  else if 1 / 2 < q - ratFloor q then ratFloor q + 1
  else if ratFloor q % 2 = 0 then ratFloor q else ratFloor q + 1

/-- The separator `"out of"` used by `parse_rating`. -/
def outOfSep : Str := ['o', 'u', 't', ' ', 'o', 'f']

/-- Python `float(s)` on an already-stripped string: optional sign, decimal
digits with optional point, optional exponent.  Digits are ASCII and the
value is the exact rational, with no rounding and no overflow to `inf`; the
`inf`/`nan` literals and digit underscores are also not modelled.  Theorems
that depend on the value bound their numerals to 15 digits, where CPython
doubles are exact; on digit-free ASCII input every source path (including
the `inf`/`nan` ones) ends in the same default as the model. -/
def pyFloat (s : Str) : Option ℚ :=
  let sgn : ℚ := if s.head? = some '-' then -1 else 1
  let s1 := if s.head? = some '-' ∨ s.head? = some '+' then s.tail else s
  let ip := s1.takeWhile isDigitC
  let r1 := s1.dropWhile isDigitC
  let fp := if r1.head? = some '.' then r1.tail.takeWhile isDigitC else []
  let r2 := if r1.head? = some '.' then r1.tail.dropWhile isDigitC else r1
  if ip = [] ∧ fp = [] then none
  else if r2 = [] then some (sgn * efnVal ip fp)
  else if r2.head? = some 'e' ∨ r2.head? = some 'E' then
    let r3 := r2.tail
    let esgn : ℤ := if r3.head? = some '-' then -1 else 1
    let r4 := if r3.head? = some '-' ∨ r3.head? = some '+' then r3.tail else r3
    let ed := r4.takeWhile isDigitC
    if ed = [] ∨ r4.dropWhile isDigitC ≠ [] then none
    else some (sgn * efnVal ip fp * (10 : ℚ) ^ (esgn * (natVal ed : ℤ)))
  else none

/-- The `'out of' in text` branch of `parse_rating`.  `none` means the branch
did not return and control falls through to the star-glyph check.  A zero
scale makes the Python code raise `ZeroDivisionError`, caught by the
enclosing handler which returns the default 5. -/
def outOfBranch (text : Str) : Option ℤ :=
  if containsSub outOfSep text then
    match pySplit 'o' ['u', 't', ' ', 'o', 'f'] text with
    | p0 :: p1 :: _ =>
      match extract_first_number p0, extract_first_number p1 with
      | some rv, some sc =>
        if sc = 0 then some 5
        else some (min 5 (max 1 (pyRound (rv * 5 / sc))))
      | _, _ => none
    | _ => none
  else none

/-- The `'/' in text` branch of `parse_rating`.  `none` means control falls
through to the generic number extraction (the Python code `pass`es on
`ValueError`).  A zero denominator raises `ZeroDivisionError`, caught by the
enclosing handler which returns the default 5. -/
def slashBranch (text : Str) : Option ℤ :=
  if '/' ∈ text then
    match pySplit '/' [] text with
    | [p0, p1] =>
      match pyFloat (pyStrip p0), pyFloat (pyStrip p1) with
      | some num, some den =>
        if den = 0 then some 5
        else some (min 5 (max 1 (pyRound (num * 5 / den))))
      | _, _ => none
    | _ => none
  else none

/-- The function `parse_rating` from `backend/app.py`: normalize free-form rating text to an
integer.  All exception paths of the source return the default 5 and are
embedded as explicit results, so the function is total. -/
def parse_rating (rating_text : Str) : ℤ :=
  let text := pyLower (pyStrip rating_text)
  if text = [] then 5
  else
    match outOfBranch text with
    | some r => r
    | none =>
      if '★' ∈ text then (text.count '★' : ℤ)
      else
        match slashBranch text with
        | some r => r
        | none =>
          match extract_first_number text with
          | some q =>
            let q2 := if 5 < q then q / 2 else q
            min 5 (max 1 (pyRound q2))
          | none => 5


/-- A DOM element as used by the extractor: only its text content matters. -/
structure ExElem where
  text : Str
deriving DecidableEq

/-- The model `ReviewSelectors` from `backend/app.py`: `container` is required, the
other selectors optional. -/
structure ReviewSelectors where
  container : Str
  title : Option Str
  rating : Option Str
  body : Option Str
  reviewer : Option Str
  date : Option Str
  pagination : Option Str

/-- The model `Review` from `backend/app.py`. -/
structure Review where
  title : Str
  body : Str
  rating : ℤ
  reviewer : Str
  date : Option Str
deriving DecidableEq

/-- One review container of a parsed document.  `select_one` abstracts
BeautifulSoup's CSS matching inside the container (external library code):
`.ok none` is "no match", `.error` is a raised exception. -/
structure Container where
  text : Str
  select_one : Str → Except Unit (Option ExElem)

/-- A parsed document.  `select` abstracts `soup.select`: the list of
containers matching a selector, or a raised exception. -/
structure Soup where
  select : Str → Except Unit (List Container)

/-- The guard `container.select_one(sel) if sel else None` used for every
optional selector in `extract_reviews_with_selectors`. -/
def selOpt (c : Container) : Option Str → Except Unit (Option ExElem)
  | none => Except.ok none
  | some s => c.select_one s

/-- One attempt of the regex `(\d+\.?\d*)\s*out of\s*\d+` anchored at the
start of `t`; returns group 1 on success.  For this pattern, greedy
matching without backtracking coincides with Python `re` semantics. -/
def jmTryAt (t : Str) : Option Str :=
  let ip := t.takeWhile isDigitC
  if ip = [] then none
  else
    let r1 := t.dropWhile isDigitC
    let g1 := if r1.head? = some '.' then ip ++ '.' :: r1.tail.takeWhile isDigitC else ip
    let r2 := if r1.head? = some '.' then r1.tail.dropWhile isDigitC else r1
    let r3 := r2.dropWhile isPySpace
    if outOfSep.isPrefixOf r3 then
      match (r3.drop 6).dropWhile isPySpace with
      | c :: _ => if isDigitC c then some g1 else none
      | [] => none
    else none

/-- Python `re.search(r'(\d+\.?\d*)\s*out of\s*\d+', t)`: first position where the
pattern matches, returning group 1. -/
def judgeSearch : Str → Option Str
  | [] => none
  | c :: rest =>
    match jmTryAt (c :: rest) with
    | some g => some g
    | none => judgeSearch rest

/-- The body of the per-container loop of `extract_reviews_with_selectors`:
extraction of one review, failing exactly when one of the underlying DOM
operations raises. -/
def extractOne (selectors : ReviewSelectors) (container : Container) :
    Except Unit Review := do
  let title_elem ← selOpt container selectors.title
  let title := match title_elem with
    | some e => pyStrip e.text
    | none => "Review".data
  let rating_elem ← selOpt container selectors.rating
  let rt0 := match rating_elem with
    | some e => pyStrip e.text
    | none => ['5']
  let rating_text := if containsSub ("judge.me".data) (pyLower rt0) then
      match judgeSearch rt0 with
      | some g => g
      | none => ['5']
    else rt0
  let rating := parse_rating rating_text
  let body_elem ← selOpt container selectors.body
  let body := match body_elem with
    | some e => pyStrip e.text
    | none => pyStrip container.text
  let reviewer_elem ← selOpt container selectors.reviewer
  let reviewer := match reviewer_elem with
    | some e => pyStrip e.text
    | none => "Anonymous".data
  let date_elem ← selOpt container selectors.date
  let date := date_elem.map fun e => pyStrip e.text
  pure { title := title, body := body, rating := rating,
         reviewer := reviewer, date := date }

/-- The `for container in containers` loop: a failing container is skipped
(`except ... continue`), the others are kept in order. -/
def extractLoop (selectors : ReviewSelectors) : List Container → List Review
  | [] => []
  | c :: rest =>
    match extractOne selectors c with
    | Except.ok r => r :: extractLoop selectors rest
    | Except.error _ => extractLoop selectors rest

/-- The function `extract_reviews_with_selectors` from `backend/app.py`.  The
`BeautifulSoup(html_content, 'html.parser')` call is external library code
and is abstracted by the already-parsed `doc`; a document-level failure
(`.error`) returns the empty list, as does a failing `soup.select`. -/
def extract_reviews_with_selectors (doc : Except Unit Soup)
    (selectors : ReviewSelectors) : List Review :=
  match doc with
  | Except.error _ => []
  | Except.ok soup =>
    match soup.select selectors.container with
    | Except.error _ => []
    | Except.ok containers => extractLoop selectors containers

/-- A pagination element found by `driver.find_elements`: its visible text
and its `href` attribute (which may be absent). -/
structure PagElem where
  text : Str
  href : Option Str

/-- A rendered page as the orchestrator sees it: its parsed `page_source`
and the elements `driver.find_elements` returns per CSS selector
(`.error` is a raised WebDriver exception). -/
structure RenderedPage where
  doc : Except Unit Soup
  find_elements : Str → Except Unit (List PagElem)

/-- The forward indicators of `get_next_page_url`. -/
def nextIndicators : List Str := ["next".data, "›".data, "»".data, "forward".data]

/-- The check `any(next_text in element.text.lower() for next_text in [...])`. -/
def hasNextText (t : Str) : Bool :=
  nextIndicators.any fun pat => containsSub pat (pyLower t)

/-- The function `get_next_page_url` from `backend/app.py`: href of the first pagination
element whose text contains a forward indicator.  All internal failures are
caught and yield `none` (no next page); a missing `pagination` selector makes
`find_elements` raise, likewise caught. -/
def get_next_page_url (page : RenderedPage) (selectors : ReviewSelectors) :
    Option Str :=
  match selectors.pagination with
  | none => none
  | some ps =>
    match page.find_elements ps with
    | Except.error _ => none
    | Except.ok es =>
      match es.find? fun e => hasNextText e.text with
      | some e => e.href
      | none => none

/-- The function `get_default_selectors` from `backend/app.py`. -/
def get_default_selectors : ReviewSelectors where
  container := "div[class*=\x27review\x27], div[class*=\x27comment\x27]".data
  title := some ("h3, h4, strong".data)
  rating := some ("span[class*=\x27rating\x27], div[class*=\x27stars\x27]".data)
  body := some ("div[class*=\x27content\x27], div[class*=\x27text\x27]".data)
  reviewer := some ("span[class*=\x27author\x27], span[class*=\x27name\x27]".data)
  date := some ("span[class*=\x27date\x27]".data)
  pagination := some ("ul.pagination a, div[class*=\x27pagination\x27] a".data)

/-- Observable steps of a crawl, for stating the temporal claims:
extraction ran on a page, or the browser navigated to a next-page URL. -/
inductive CrawlEv where
  | extracted : Str → CrawlEv
  | navigated : Str → CrawlEv
deriving DecidableEq

/-- Whether an event is a completed next-page navigation. -/
def isNavEv : CrawlEv → Bool
  | CrawlEv.navigated _ => true
  | _ => false

/-- Whether an event is an extraction. -/
def isExtractEv : CrawlEv → Bool
  | CrawlEv.extracted _ => true
  | _ => false

/-- The dictionary returned by the `/api/reviews` endpoint. -/
structure CrawlResult where
  reviews_count : ℕ
  pages_processed : ℕ
  reviews : List Review
deriving DecidableEq

/-- The `while current_url and page_count < max_pages` loop of `get_reviews`.
The fuel argument is the number of remaining loop iterations
(`max_pages - page_count`); `site` abstracts `driver.get` followed by
reading the rendered page (`.error` is a navigation failure, which breaks
the loop).  Returns the accumulated reviews, the number of completed
next-page navigations (the final `page_count`), and the event trace. -/
def crawl_loop (site : Str → Except Unit RenderedPage)
    (selectors : ReviewSelectors) :
    ℕ → RenderedPage → Str → List Review × ℕ × List CrawlEv
  | 0, _, _ => ([], 0, [])
  | fuel + 1, page, current_url =>
    if current_url = [] then ([], 0, [])
    else
      let reviews := extract_reviews_with_selectors page.doc selectors
      match get_next_page_url page selectors with
      | none => (reviews, 0, [CrawlEv.extracted current_url])
      | some next_url =>
        if next_url = [] ∨ next_url = current_url then
          (reviews, 0, [CrawlEv.extracted current_url])
        else
          match site next_url with
          | Except.error _ => (reviews, 0, [CrawlEv.extracted current_url])
          | Except.ok page2 =>
            let rest := crawl_loop site selectors fuel page2 next_url
            (reviews ++ rest.1, rest.2.1 + 1,
              CrawlEv.extracted current_url :: CrawlEv.navigated next_url :: rest.2.2)

/-- Auxiliary constructor for concrete containers: answers the five default
sub-element selectors with the given results and raises on anything else. -/
def mkContainer (full : Str) (t r b rv d : Except Unit (Option ExElem)) :
    Container where
  text := full
  select_one := fun s =>
    if s = "h3, h4, strong".data then t
    else if s = "span[class*=\x27rating\x27], div[class*=\x27stars\x27]".data then r
    else if s = "div[class*=\x27content\x27], div[class*=\x27text\x27]".data then b
    else if s = "span[class*=\x27author\x27], span[class*=\x27name\x27]".data then rv
    else if s = "span[class*=\x27date\x27]".data then d
    else Except.error ()

/-- A fully populated review container. -/
def cAlice : Container :=
  mkContainer ("Great product!".data)
    (Except.ok (some ⟨"Great".data⟩))
    (Except.ok (some ⟨"4 out of 5".data⟩))
    (Except.ok (some ⟨"Loved it".data⟩))
    (Except.ok (some ⟨"Alice".data⟩))
    (Except.ok (some ⟨"2024-01-01".data⟩))

/-- A container in which no sub-element selector matches anything. -/
def cDefaults : Container :=
  mkContainer ("  just the container text  ".data)
    (Except.ok none) (Except.ok none) (Except.ok none)
    (Except.ok none) (Except.ok none)

/-- A container with a fractional rating and no date. -/
def cBob : Container :=
  mkContainer ("Bob says ok".data)
    (Except.ok (some ⟨"Okay".data⟩))
    (Except.ok (some ⟨"8/10".data⟩))
    (Except.ok (some ⟨"Decent".data⟩))
    (Except.ok (some ⟨"Bob".data⟩))
    (Except.ok none)

/-- A container whose title lookup raises: its extraction fails. -/
def cFailTitle : Container :=
  mkContainer ("broken".data)
    (Except.error ())
    (Except.ok (some ⟨"5".data⟩))
    (Except.ok (some ⟨"text".data⟩))
    (Except.ok (some ⟨"Carol".data⟩))
    (Except.ok none)

/-- A container whose rating text is six star glyphs. -/
def cStar : Container :=
  mkContainer ("stars".data)
    (Except.ok (some ⟨"Wow".data⟩))
    (Except.ok (some ⟨"★★★★★★".data⟩))
    (Except.ok (some ⟨"So many stars".data⟩))
    (Except.ok (some ⟨"Dave".data⟩))
    (Except.ok none)

/-- A soup whose container query yields the three page-1 containers. -/
def soup1 : Soup where
  select := fun s =>
    if s = get_default_selectors.container then Except.ok [cAlice, cDefaults, cBob]
    else Except.error ()

/-- A soup with the two page-2 containers. -/
def soup2 : Soup where
  select := fun s =>
    if s = get_default_selectors.container then Except.ok [cAlice, cBob]
    else Except.error ()

/-- A soup whose middle container fails to extract. -/
def soupIso : Soup where
  select := fun s =>
    if s = get_default_selectors.container then Except.ok [cAlice, cFailTitle, cBob]
    else Except.error ()

/-- A soup with a single six-star container. -/
def soupStar : Soup where
  select := fun s =>
    if s = get_default_selectors.container then Except.ok [cStar]
    else Except.error ()

/-- Page 1 of the concrete site: three containers and a "Next" link. -/
def pg1 : RenderedPage where
  doc := Except.ok soup1
  find_elements := fun s =>
    if s = "ul.pagination a, div[class*=\x27pagination\x27] a".data then
      Except.ok [{ text := "Next".data, href := some ("page2".data) }]
    else Except.error ()

/-- Page 2 of the concrete site: two containers and no pagination links. -/
def pg2 : RenderedPage where
  doc := Except.ok soup2
  find_elements := fun s =>
    if s = "ul.pagination a, div[class*=\x27pagination\x27] a".data then
      Except.ok []
    else Except.error ()

/-- A concrete two-page site: `page1` links forward to `page2`, which is
terminal; every other URL fails to load. -/
def twoPageSite : Str → Except Unit RenderedPage := fun u =>
  if u = "page1".data then Except.ok pg1
  else if u = "page2".data then Except.ok pg2
  else Except.error ()

/-- The endpoint handler `get_reviews` from `backend/app.py`.  Browser setup and the initial
navigation are abstracted by `site url`; their failure raises an
`HTTPException` (the `.error` result).  The crawl then always uses the
default selectors.  `pages_processed` is `page_count + 1`. -/
def get_reviews (site : Str → Except Unit RenderedPage) (url : Str)
    (max_pages : ℤ) : Except Unit (CrawlResult × List CrawlEv) :=
  match site url with
  | Except.error _ => Except.error ()
  | Except.ok page =>
    let selectors := get_default_selectors
    let out := crawl_loop site selectors max_pages.toNat page url
    Except.ok ({ reviews_count := out.1.length, pages_processed := out.2.1 + 1,
                 reviews := out.1 }, out.2.2)






/-- Rounding half away from zero.  The specification computes
`round(9/2) = 5`, so its `round` is this function; the Python source's
`round` is `pyRound` (ties to even).  Declared only to state the claims
exactly as the specification words them. -/
def spec_round_half_up (q : ℚ) : ℤ := ratFloor (q + 1 / 2)

/-- A soup whose container query always raises (document-level failure). -/
def soupErr : Soup where
  select := fun _ => Except.error ()

/-- The default selectors with the rating selector absent. -/
def selsNoRating : ReviewSelectors :=
  { get_default_selectors with rating := none }

/-- The concrete crawl of the two-page site with `max_pages = 1`. -/
def crawlW1 : CrawlResult × List CrawlEv :=
  match get_reviews twoPageSite ("page1".data) 1 with
  | Except.ok v => v
  | Except.error _ => ({ reviews_count := 0, pages_processed := 0, reviews := [] }, [])

/-- The concrete crawl of the two-page site with `max_pages = 0`. -/
def crawlW0 : CrawlResult × List CrawlEv :=
  match get_reviews twoPageSite ("page1".data) 0 with
  | Except.ok v => v
  | Except.error _ => ({ reviews_count := 0, pages_processed := 0, reviews := [] }, [])
/-- All characters of a string are decimal digits. -/
def AllDigits (s : Str) : Prop := ∀ c ∈ s, isDigitC c = true

/-- The digit predicate is decidable, so witnesses evaluate it. -/
instance (s : Str) : Decidable (AllDigits s) :=
  List.decidableBAll (fun c => isDigitC c = true) s

lemma isDigitC_toNat {c : Char} (h : isDigitC c = true) :
    48 ≤ c.toNat ∧ c.toNat ≤ 57 := by
  simpa [isDigitC] using h

lemma digit_ne {c d : Char} (h : isDigitC c = true)
    (hd : ¬ isDigitC d = true) : c ≠ d :=
  fun e => hd (e ▸ h)

lemma digit_not_space {c : Char} (h : isDigitC c = true) :
    isPySpace c = false := by
  have := isDigitC_toNat h
  simp only [isPySpace, Bool.or_eq_false_iff, decide_eq_false_iff_not]
  omega

lemma pyLowerChar_eq_self {c : Char} (h : c.toNat < 65 ∨ 90 < c.toNat) :
    pyLowerChar c = c := by
  unfold pyLowerChar
  rw [if_neg]
  omega

lemma pyLowerChar_digit {c : Char} (h : isDigitC c = true) :
    pyLowerChar c = c :=
  pyLowerChar_eq_self (Or.inl (by have := isDigitC_toNat h; omega))

lemma pyLower_eq_self : ∀ {s : Str}, (∀ c ∈ s, pyLowerChar c = c) →
    pyLower s = s
  | [], _ => rfl
  | c :: t, h => by
    have ht := pyLower_eq_self (s := t) fun x hx => h x (List.mem_cons_of_mem c hx)
    simp only [pyLower, List.map_cons] at ht ⊢
    rw [h c (List.mem_cons_self c t), ht]

lemma dropWhile_eq_self {p : Char → Bool} : ∀ {s : Str},
    (∀ c, s.head? = some c → p c = false) → s.dropWhile p = s
  | [], _ => rfl
  | c :: t, h => by
    have hc := h c rfl
    simp [List.dropWhile, hc]

lemma pyStrip_eq_self {s : Str}
    (h1 : ∀ c, s.head? = some c → isPySpace c = false)
    (h2 : ∀ c, s.getLast? = some c → isPySpace c = false) :
    pyStrip s = s := by
  unfold pyStrip
  rw [dropWhile_eq_self h1]
  rw [dropWhile_eq_self (by simpa [List.head?_reverse] using h2)]
  exact List.reverse_reverse s

lemma containsSub_cons (pat : Str) (c : Char) (rest : Str) :
    containsSub pat (c :: rest) =
      (pat.isPrefixOf (c :: rest) || containsSub pat rest) := rfl

lemma containsSub_nil_pat : ∀ s : Str, containsSub [] s = true
  | [] => rfl
  | _ :: t => by simp [containsSub_cons, List.isPrefixOf]

lemma isPrefixOf_append_self (l t : Str) : l.isPrefixOf (l ++ t) = true := by
  rw [List.isPrefixOf_iff_prefix]
  exact ⟨t, rfl⟩

lemma containsSub_append_mid (pat : Str) : ∀ (a b : Str),
    containsSub pat (a ++ pat ++ b) = true := by
  intro a
  induction a with
  | nil =>
    intro b
    cases pat with
    | nil => simpa using containsSub_nil_pat b
    | cons p pt =>
      rw [List.nil_append, List.cons_append, containsSub_cons,
        ← List.cons_append, isPrefixOf_append_self, Bool.true_or]
  | cons x a ih =>
    intro b
    rw [List.cons_append, List.cons_append, containsSub_cons, ih b, Bool.or_true]

lemma containsSub_eq_false {sh : Char} {st : Str} : ∀ {s : Str},
    (∀ c ∈ s, c ≠ sh) → containsSub (sh :: st) s = false
  | [], _ => rfl
  | c :: t, h => by
    have hc : (sh == c) = false := by
      have := h c (List.mem_cons_self c t)
      simp [Ne.symm this]
    have ht := @containsSub_eq_false sh st t
      fun x hx => h x (List.mem_cons_of_mem c hx)
    rw [containsSub_cons, List.isPrefixOf_cons₂, hc, Bool.false_and,
      Bool.false_or, ht]

lemma pySplitGo_nil (sh : Char) (st : Str) (f : ℕ) :
    pySplitGo sh st f [] = [[]] := by
  cases f <;> rfl

lemma pySplitGo_succ_cons (sh : Char) (st : Str) (f : ℕ) (d : Char) (rest : Str) :
    pySplitGo sh st (f + 1) (d :: rest) =
      if (sh :: st).isPrefixOf (d :: rest) then
        [] :: pySplitGo sh st f (rest.drop st.length)
      else
        match pySplitGo sh st f rest with
        | p :: ps => (d :: p) :: ps
        | [] => [[d]] := rfl

lemma pySplitGo_congr (sh : Char) (st : Str) : ∀ (f1 : ℕ) {s : Str} (f2 : ℕ),
    s.length ≤ f1 → s.length ≤ f2 →
    pySplitGo sh st f1 s = pySplitGo sh st f2 s
  | 0, s, f2, h1, _ => by
    have : s = [] := List.eq_nil_of_length_eq_zero (Nat.le_zero.mp h1)
    subst this
    rw [pySplitGo_nil, pySplitGo_nil]
  | f + 1, [], f2, _, _ => by rw [pySplitGo_nil, pySplitGo_nil]
  | f + 1, d :: rest, f2, h1, h2 => by
    cases f2 with
    | zero => simp at h2
    | succ f2 =>
      simp only [List.length_cons, Nat.add_le_add_iff_right] at h1 h2
      rw [pySplitGo_succ_cons, pySplitGo_succ_cons]
      have hdrop1 : (rest.drop st.length).length ≤ f :=
        le_trans (by simp [List.length_drop]) h1
      have hdrop2 : (rest.drop st.length).length ≤ f2 :=
        le_trans (by simp [List.length_drop]) h2
      by_cases hp : (sh :: st).isPrefixOf (d :: rest) = true
      · rw [if_pos hp, if_pos hp, pySplitGo_congr sh st f f2 hdrop1 hdrop2]
      · rw [if_neg hp, if_neg hp, pySplitGo_congr sh st f f2 h1 h2]

lemma pySplitGo_no_sep (sh : Char) (st : Str) : ∀ (f : ℕ) {s : Str},
    s.length ≤ f → (∀ c ∈ s, c ≠ sh) → pySplitGo sh st f s = [s]
  | f, [], _, _ => pySplitGo_nil sh st f
  | 0, d :: rest, h1, _ => by simp at h1
  | f + 1, d :: rest, h1, h2 => by
    have hd : (sh == d) = false := by
      have := h2 d (List.mem_cons_self d rest)
      simp [Ne.symm this]
    have ht := pySplitGo_no_sep sh st f (s := rest)
      (by simp only [List.length_cons, Nat.add_le_add_iff_right] at h1; exact h1)
      fun x hx => h2 x (List.mem_cons_of_mem d hx)
    rw [pySplitGo_succ_cons, if_neg (by rw [List.isPrefixOf_cons₂, hd]; simp), ht]

lemma pySplitGo_boundary (sh : Char) (st : Str) : ∀ (f : ℕ) (a : Str) {b : Str},
    (a ++ (sh :: st) ++ b).length ≤ f → (∀ c ∈ a, c ≠ sh) →
    pySplitGo sh st f (a ++ (sh :: st) ++ b) = a :: pySplitGo sh st b.length b
  | 0, a, b, h1, _ => by simp [List.length_append] at h1
  | f + 1, [], b, h1, _ => by
    simp only [List.length_append, List.length_cons, List.nil_append] at h1
    rw [List.nil_append, List.cons_append, pySplitGo_succ_cons,
      if_pos (by rw [← List.cons_append]; exact isPrefixOf_append_self _ _),
      List.drop_left]
    rw [pySplitGo_congr sh st f b.length (by omega) le_rfl]
  | f + 1, x :: a, b, h1, h2 => by
    have hx : (sh == x) = false := by
      have := h2 x (List.mem_cons_self x a)
      simp [Ne.symm this]
    have ht := pySplitGo_boundary sh st f a (b := b)
      (by simp only [List.length_append, List.length_cons] at h1 ⊢; omega)
      fun c hc => h2 c (List.mem_cons_of_mem x hc)
    rw [List.cons_append, List.cons_append, pySplitGo_succ_cons,
      if_neg (by rw [List.isPrefixOf_cons₂, hx]; simp)]
    rw [ht]

lemma pySplit_boundary {sh : Char} {st : Str} (a b : Str)
    (ha : ∀ c ∈ a, c ≠ sh) (hb : ∀ c ∈ b, c ≠ sh) :
    pySplit sh st (a ++ (sh :: st) ++ b) = [a, b] := by
  unfold pySplit
  rw [pySplitGo_boundary sh st _ a le_rfl ha,
    pySplitGo_no_sep sh st b.length le_rfl hb]

lemma toNat_ofNat_valid {n : ℕ} (h : Nat.isValidChar n) :
    (Char.ofNat n).toNat = n := by
  rw [Char.ofNat, dif_pos h]
  rfl

lemma char_toNat_injective {c d : Char} (h : c.toNat = d.toNat) : c = d := by
  rw [← Char.ofNat_toNat c, ← Char.ofNat_toNat d, h]

lemma pyLowerChar_toNat (c : Char) : (pyLowerChar c).toNat =
    if 65 ≤ c.toNat ∧ c.toNat ≤ 90 then c.toNat + 32 else c.toNat := by
  unfold pyLowerChar
  by_cases h : 65 ≤ c.toNat ∧ c.toNat ≤ 90
  · rw [if_pos h, if_pos h, toNat_ofNat_valid (Or.inl (by omega))]
  · rw [if_neg h, if_neg h]

lemma pyLowerChar_not_digit {c : Char} (h : isDigitC c = false) :
    isDigitC (pyLowerChar c) = false := by
  have ht := pyLowerChar_toNat c
  simp only [isDigitC, Bool.and_eq_false_iff, decide_eq_false_iff_not] at h ⊢
  by_cases hc : 65 ≤ c.toNat ∧ c.toNat ≤ 90
  · rw [if_pos hc] at ht; omega
  · rw [if_neg hc] at ht; omega

lemma pyLowerChar_ne_star {c : Char} (h : c ≠ '★') : pyLowerChar c ≠ '★' := by
  intro he
  have ht := pyLowerChar_toNat c
  rw [he] at ht
  have hs : ('★').toNat = 9733 := rfl
  rw [hs] at ht
  by_cases hc : 65 ≤ c.toNat ∧ c.toNat ≤ 90
  · rw [if_pos hc] at ht; omega
  · rw [if_neg hc] at ht
    exact h (char_toNat_injective (by rw [hs]; omega))

lemma mem_pyStrip {c : Char} {s : Str} (h : c ∈ pyStrip s) : c ∈ s := by
  unfold pyStrip at h
  rw [List.mem_reverse] at h
  have h2 := (List.dropWhile_sublist (l := (s.dropWhile isPySpace).reverse)
    (p := isPySpace)).subset h
  rw [List.mem_reverse] at h2
  exact (List.dropWhile_sublist (l := s) (p := isPySpace)).subset h2

lemma takeWhile_append_all {p : Char → Bool} : ∀ {d r : Str},
    (∀ c ∈ d, p c = true) → List.takeWhile p (d ++ r) = d ++ List.takeWhile p r
  | [], _, _ => rfl
  | c :: t, r, h => by
    have hc := h c (List.mem_cons_self c t)
    have ht := takeWhile_append_all (d := t) (r := r)
      fun x hx => h x (List.mem_cons_of_mem c hx)
    simp [List.takeWhile_cons, hc, ht]

lemma dropWhile_append_all {p : Char → Bool} : ∀ {d r : Str},
    (∀ c ∈ d, p c = true) → List.dropWhile p (d ++ r) = List.dropWhile p r
  | [], _, _ => rfl
  | c :: t, r, h => by
    have hc := h c (List.mem_cons_self c t)
    have ht := dropWhile_append_all (d := t) (r := r)
      fun x hx => h x (List.mem_cons_of_mem c hx)
    simp [List.dropWhile_cons, hc, ht]

lemma takeWhile_all {p : Char → Bool} {d : Str} (h : ∀ c ∈ d, p c = true) :
    List.takeWhile p d = d := by
  have := takeWhile_append_all (r := []) h
  simpa using this

lemma dropWhile_all {p : Char → Bool} {d : Str} (h : ∀ c ∈ d, p c = true) :
    List.dropWhile p d = [] := by
  have := dropWhile_append_all (r := []) h
  simpa using this

lemma takeWhile_head_false {p : Char → Bool} {r : Str}
    (h : ∀ c, r.head? = some c → p c = false) : List.takeWhile p r = [] := by
  cases r with
  | nil => rfl
  | cons c t => simp [List.takeWhile_cons, h c rfl]

lemma takeWhile_none {p : Char → Bool} {r : Str}
    (h : ∀ c ∈ r, p c = false) : List.takeWhile p r = [] := by
  cases r with
  | nil => rfl
  | cons c t => simp [List.takeWhile_cons, h c (List.mem_cons_self c t)]

lemma efnVal_nil (d : Str) : efnVal d [] = (natVal d : ℚ) := by
  have h0 : natVal [] = 0 := rfl
  simp [efnVal, h0]

lemma efn_cons_digit {c : Char} {rest : Str} (hc : isDigitC c = true) :
    extract_first_number (c :: rest) =
      some (efnVal (List.takeWhile isDigitC (c :: rest))
        (if (List.dropWhile isDigitC (c :: rest)).head? = some '.' then
          (List.dropWhile isDigitC (c :: rest)).tail.takeWhile isDigitC
         else [])) := by
  simp only [extract_first_number, hc, if_true]

lemma efn_skip {c : Char} {r : Str} (h : isDigitC c = false) :
    extract_first_number (c :: r) = extract_first_number r := by
  simp [extract_first_number, h]

lemma efn_none : ∀ {s : Str}, (∀ c ∈ s, isDigitC c = false) →
    extract_first_number s = none
  | [], _ => rfl
  | c :: t, h => by
    rw [efn_skip (h c (List.mem_cons_self c t))]
    exact efn_none fun x hx => h x (List.mem_cons_of_mem c hx)

lemma efn_digits {d r : Str} (hd : AllDigits d) (hne : d ≠ [])
    (hr : ∀ c, r.head? = some c → isDigitC c = false ∧ c ≠ '.') :
    extract_first_number (d ++ r) = some ((natVal d : ℚ)) := by
  obtain ⟨c, d', rfl⟩ := List.exists_cons_of_ne_nil hne
  have hc : isDigitC c = true := hd c (List.mem_cons_self _ _)
  have htake : List.takeWhile isDigitC ((c :: d') ++ r) = c :: d' := by
    rw [takeWhile_append_all hd,
      takeWhile_head_false fun x hx => (hr x hx).1, List.append_nil]
  have hdrop : List.dropWhile isDigitC ((c :: d') ++ r) = r := by
    rw [dropWhile_append_all hd]
    exact dropWhile_eq_self fun x hx => (hr x hx).1
  rw [List.cons_append, efn_cons_digit hc, ← List.cons_append, htake, hdrop]
  rw [if_neg fun hx => (hr '.' hx).2 rfl, efnVal_nil]

lemma efn_digits_nil {d : Str} (hd : AllDigits d) (hne : d ≠ []) :
    extract_first_number d = some ((natVal d : ℚ)) := by
  have := efn_digits (r := []) hd hne (by intro c hc; cases hc)
  simpa using this

lemma pyFloat_digits {d : Str} (hd : AllDigits d) (hne : d ≠ []) :
    pyFloat d = some ((natVal d : ℚ)) := by
  obtain ⟨c, d', rfl⟩ := List.exists_cons_of_ne_nil hne
  have hc : isDigitC c = true := hd c (List.mem_cons_self _ _)
  have hcm : ¬ ((c :: d').head? = some '-') := by
    simp only [List.head?_cons, Option.some.injEq]
    exact digit_ne hc (by decide)
  have hcp : ¬ ((c :: d').head? = some '-' ∨ (c :: d').head? = some '+') := by
    rintro (h | h)
    · exact hcm h
    · simp only [List.head?_cons, Option.some.injEq] at h
      exact digit_ne hc (by decide) h
  have htake : List.takeWhile isDigitC (c :: d') = c :: d' := takeWhile_all hd
  have hdrop : List.dropWhile isDigitC (c :: d') = [] := dropWhile_all hd
  simp only [pyFloat, if_neg hcm, if_neg hcp, htake, hdrop, List.head?_nil,
    reduceCtorEq, if_false, if_neg (by simp : ¬ ((none : Option Char) = some '.')),
    List.dropWhile_nil]
  simp only [if_true, efnVal_nil, one_mul, false_and, if_false]

lemma tail_subset_chars {c : Char} {s : Str} (h : c ∈ s.tail) : c ∈ s :=
  (List.tail_sublist s).subset h

lemma pyFloat_none {d : Str} (hnod : ∀ c ∈ d, isDigitC c = false) :
    pyFloat d = none := by
  have hs1 : ∀ (s1 : Str), (∀ c ∈ s1, isDigitC c = false) →
      (List.takeWhile isDigitC s1 = [] ∧
        (if (List.dropWhile isDigitC s1).head? = some '.' then
          (List.dropWhile isDigitC s1).tail.takeWhile isDigitC else []) = []) := by
    intro s1 h1
    have ht : List.takeWhile isDigitC s1 = [] := takeWhile_none h1
    have hdw : List.dropWhile isDigitC s1 = s1 :=
      dropWhile_eq_self fun x hx => h1 x (by
        cases s1 with
        | nil => cases hx
        | cons a t => simp only [List.head?_cons, Option.some.injEq] at hx; subst hx
                      exact List.mem_cons_self a t)
    refine ⟨ht, ?_⟩
    split
    · rw [hdw]
      exact takeWhile_none fun x hx => h1 x (tail_subset_chars hx)
    · rfl
  have htail : ∀ c ∈ d.tail, isDigitC c = false :=
    fun c hc => hnod c (tail_subset_chars hc)
  unfold pyFloat
  by_cases hsign : d.head? = some '-' ∨ d.head? = some '+'
  · obtain ⟨h1, h2⟩ := hs1 d.tail htail
    simp [hsign, h1, h2]
  · obtain ⟨h1, h2⟩ := hs1 d hnod
    simp [hsign, h1, h2]

lemma forall_mem_append2 {P : Char → Prop} {a b : Str}
    (ha : ∀ c ∈ a, P c) (hb : ∀ c ∈ b, P c) : ∀ c ∈ a ++ b, P c := by
  intro c hc
  rcases List.mem_append.mp hc with h | h
  · exact ha c h
  · exact hb c h

lemma forall_mem_append3 {P : Char → Prop} {a b d : Str}
    (ha : ∀ c ∈ a, P c) (hb : ∀ c ∈ b, P c) (hd : ∀ c ∈ d, P c) :
    ∀ c ∈ a ++ b ++ d, P c :=
  forall_mem_append2 (forall_mem_append2 ha hb) hd

lemma head_not_space_append {dN r : Str} (hdN : AllDigits dN) (hN : dN ≠ []) :
    ∀ c, (dN ++ r).head? = some c → isPySpace c = false := by
  obtain ⟨c0, t, rfl⟩ := List.exists_cons_of_ne_nil hN
  intro c hc
  rw [List.cons_append, List.head?_cons] at hc
  cases Option.some.inj hc
  exact digit_not_space (hdN c0 (List.mem_cons_self _ _))

lemma last_not_space_append {x dM : Str} (hdM : AllDigits dM) (hM : dM ≠ []) :
    ∀ c, (x ++ dM).getLast? = some c → isPySpace c = false := by
  intro c hc
  rw [List.getLast?_append, List.getLast?_eq_getLast dM hM] at hc
  simp only [Option.or] at hc
  cases Option.some.inj hc
  exact digit_not_space (hdM _ (List.getLast_mem hM))

lemma pyNorm_eq_self {s : Str}
    (hlower : ∀ c ∈ s, pyLowerChar c = c)
    (h1 : ∀ c, s.head? = some c → isPySpace c = false)
    (h2 : ∀ c, s.getLast? = some c → isPySpace c = false) :
    pyLower (pyStrip s) = s := by
  rw [pyStrip_eq_self h1 h2, pyLower_eq_self hlower]

lemma pyStrip_digits {d : Str} (hd : AllDigits d) : pyStrip d = d := by
  cases hdn : d with
  | nil => rfl
  | cons c t =>
    subst hdn
    refine pyStrip_eq_self ?_ ?_
    · intro x hx
      rw [List.head?_cons] at hx
      cases Option.some.inj hx
      exact digit_not_space (hd c (List.mem_cons_self _ _))
    · intro x hx
      exact digit_not_space (hd x (List.mem_of_getLast?_eq_some hx))

lemma pyLower_digits {d : Str} (hd : AllDigits d) : pyLower d = d :=
  pyLower_eq_self fun c hc => pyLowerChar_digit (hd c hc)

lemma pySplitGo_subset (sh : Char) (st : Str) : ∀ (f : ℕ) (s : Str),
    ∀ p ∈ pySplitGo sh st f s, ∀ c ∈ p, c ∈ s
  | f, [] => by
    rw [pySplitGo_nil]
    intro p hp c hc
    simp only [List.mem_singleton] at hp
    subst hp
    cases hc
  | 0, d :: rest => by
    intro p hp c hc
    simp only [pySplitGo, List.mem_singleton] at hp
    subst hp
    exact hc
  | f + 1, d :: rest => by
    intro p hp c hc
    rw [pySplitGo_succ_cons] at hp
    by_cases hpre : (sh :: st).isPrefixOf (d :: rest) = true
    · rw [if_pos hpre] at hp
      rcases List.mem_cons.mp hp with rfl | hp2
      · cases hc
      · have := pySplitGo_subset sh st f (rest.drop st.length) p hp2 c hc
        exact List.mem_cons_of_mem d (List.drop_subset _ rest this)
    · rw [if_neg hpre] at hp
      cases hrec : pySplitGo sh st f rest with
      | nil =>
        rw [hrec] at hp
        simp only [List.mem_singleton] at hp
        subst hp
        simp only [List.mem_singleton] at hc
        rw [hc]
        exact List.mem_cons_self d rest
      | cons q qs =>
        rw [hrec] at hp
        rcases List.mem_cons.mp hp with rfl | hp2
        · rcases List.mem_cons.mp hc with rfl | hc2
          · exact List.mem_cons_self c rest
          · have := pySplitGo_subset sh st f rest q (by rw [hrec]; exact List.mem_cons_self q qs) c hc2
            exact List.mem_cons_of_mem d this
        · have := pySplitGo_subset sh st f rest p (by rw [hrec]; exact List.mem_cons_of_mem q hp2) c hc
          exact List.mem_cons_of_mem d this

lemma pySplit_subset {sh : Char} {st : Str} {s p : Str}
    (hp : p ∈ pySplit sh st s) {c : Char} (hc : c ∈ p) : c ∈ s :=
  pySplitGo_subset sh st s.length s p hp c hc

lemma outOfBranch_eq_of_no_o {t : Str} (h : ∀ c ∈ t, c ≠ 'o') :
    outOfBranch t = none := by
  unfold outOfBranch
  rw [if_neg (show ¬ containsSub outOfSep t = true by
    unfold outOfSep
    rw [@containsSub_eq_false 'o' ['u', 't', ' ', 'o', 'f'] t h]
    exact Bool.false_ne_true)]

lemma slashBranch_eq_of_no_slash {t : Str} (h : ¬ '/' ∈ t) :
    slashBranch t = none := by
  unfold slashBranch
  rw [if_neg h]

/-- Evaluation of `parse_rating` on `"N out of M"` with decimal numerals `N`, `M` and
`M > 0`: the value is `clamp(pyRound(N*5/M), 1, 5)`. -/
lemma parse_rating_out_of {dN dM : Str} (hdN : AllDigits dN) (hdM : AllDigits dM)
    (hN : dN ≠ []) (hM : dM ≠ []) (hMpos : 0 < natVal dM) :
    parse_rating (dN ++ " out of ".data ++ dM) =
      min 5 (max 1 (pyRound ((natVal dN : ℚ) * 5 / (natVal dM : ℚ)))) := by
  have hshape : dN ++ " out of ".data ++ dM =
      (dN ++ [' ']) ++ ('o' :: ['u', 't', ' ', 'o', 'f']) ++ (' ' :: dM) := by
    simp
  have hlower : ∀ c ∈ dN ++ " out of ".data ++ dM, pyLowerChar c = c :=
    forall_mem_append3 (fun c hc => pyLowerChar_digit (hdN c hc))
      (by decide) (fun c hc => pyLowerChar_digit (hdM c hc))
  have hnorm : pyLower (pyStrip (dN ++ " out of ".data ++ dM)) =
      dN ++ " out of ".data ++ dM := by
    refine pyNorm_eq_self hlower ?_ (last_not_space_append hdM hM)
    intro c hc
    rw [List.append_assoc] at hc
    exact head_not_space_append hdN hN c hc
  have hne : dN ++ " out of ".data ++ dM ≠ [] := by
    obtain ⟨c0, t, rfl⟩ := List.exists_cons_of_ne_nil hN
    simp
  have hAo : ∀ c ∈ dN ++ [' '], c ≠ 'o' :=
    forall_mem_append2 (fun c hc => digit_ne (hdN c hc) (by decide))
      (by decide)
  have hBo : ∀ c ∈ ' ' :: dM, c ≠ 'o' := by
    intro c hc
    rcases List.mem_cons.mp hc with rfl | h2
    · decide
    · exact digit_ne (hdM c h2) (by decide)
  have hc : containsSub outOfSep (dN ++ " out of ".data ++ dM) = true := by
    rw [hshape]
    exact containsSub_append_mid outOfSep (dN ++ [' ']) (' ' :: dM)
  have hsplit : pySplit 'o' ['u', 't', ' ', 'o', 'f']
      (dN ++ " out of ".data ++ dM) = [dN ++ [' '], ' ' :: dM] := by
    rw [hshape]
    exact pySplit_boundary _ _ hAo hBo
  have hefn0 : extract_first_number (dN ++ [' ']) = some ((natVal dN : ℚ)) := by
    refine efn_digits hdN hN ?_
    intro c hcc
    rw [List.head?_cons] at hcc
    cases Option.some.inj hcc
    exact ⟨by decide, by decide⟩
  have hefn1 : extract_first_number (' ' :: dM) = some ((natVal dM : ℚ)) := by
    rw [efn_skip (by decide)]
    exact efn_digits_nil hdM hM
  have hMne : ((natVal dM : ℚ)) ≠ 0 := Nat.cast_ne_zero.mpr (by omega)
  have houtof : outOfBranch (dN ++ " out of ".data ++ dM) =
      some (min 5 (max 1 (pyRound ((natVal dN : ℚ) * 5 / (natVal dM : ℚ))))) := by
    unfold outOfBranch
    rw [if_pos hc, hsplit]
    simp only [hefn0, hefn1]
    rw [if_neg hMne]
  simp only [parse_rating, hnorm, if_neg hne, houtof]

/-- Evaluation of `parse_rating` on the fractional form `"N/M"` with decimal numerals and
`M > 0`: the value is `clamp(pyRound(N*5/M), 1, 5)`. -/
lemma parse_rating_slash {dN dM : Str} (hdN : AllDigits dN) (hdM : AllDigits dM)
    (hN : dN ≠ []) (hM : dM ≠ []) (hMpos : 0 < natVal dM) :
    parse_rating (dN ++ "/".data ++ dM) =
      min 5 (max 1 (pyRound ((natVal dN : ℚ) * 5 / (natVal dM : ℚ)))) := by
  have hlower : ∀ c ∈ dN ++ "/".data ++ dM, pyLowerChar c = c :=
    forall_mem_append3 (fun c hc => pyLowerChar_digit (hdN c hc))
      (by decide) (fun c hc => pyLowerChar_digit (hdM c hc))
  have hnorm : pyLower (pyStrip (dN ++ "/".data ++ dM)) = dN ++ "/".data ++ dM := by
    refine pyNorm_eq_self hlower ?_ (last_not_space_append hdM hM)
    intro c hc
    rw [List.append_assoc] at hc
    exact head_not_space_append hdN hN c hc
  have hne : dN ++ "/".data ++ dM ≠ [] := by
    obtain ⟨c0, t, rfl⟩ := List.exists_cons_of_ne_nil hN
    simp
  have hno_o : ∀ c ∈ dN ++ "/".data ++ dM, c ≠ 'o' :=
    forall_mem_append3 (fun c hc => digit_ne (hdN c hc) (by decide))
      (by decide) (fun c hc => digit_ne (hdM c hc) (by decide))
  have hno_star : ¬ '★' ∈ dN ++ "/".data ++ dM := by
    intro hmem
    have := forall_mem_append3 (P := fun c => c ≠ '★')
      (fun c hc => digit_ne (hdN c hc) (by decide)) (by decide)
      (fun c hc => digit_ne (hdM c hc) (by decide)) '★' hmem
    exact this rfl
  have hmem : '/' ∈ dN ++ "/".data ++ dM := by
    refine List.mem_append.mpr (Or.inl ?_)
    exact List.mem_append.mpr (Or.inr (by decide))
  have hsplit : pySplit '/' [] (dN ++ "/".data ++ dM) = [dN, dM] :=
    pySplit_boundary dN dM (fun c hc => digit_ne (hdN c hc) (by decide))
      (fun c hc => digit_ne (hdM c hc) (by decide))
  have hMne : ((natVal dM : ℚ)) ≠ 0 := Nat.cast_ne_zero.mpr (by omega)
  have hslash : slashBranch (dN ++ "/".data ++ dM) =
      some (min 5 (max 1 (pyRound ((natVal dN : ℚ) * 5 / (natVal dM : ℚ))))) := by
    unfold slashBranch
    rw [if_pos hmem, hsplit]
    simp only [pyStrip_digits hdN, pyStrip_digits hdM,
      pyFloat_digits hdN hN, pyFloat_digits hdM hM]
    rw [if_neg hMne]
  simp only [parse_rating, hnorm, if_neg hne,
    outOfBranch_eq_of_no_o hno_o, if_neg hno_star, hslash]

/-- Evaluation of `parse_rating` on a plain decimal numeral greater than five: halve,
round (ties to even), clamp. -/
lemma parse_rating_numeric_gt5 {d : Str} (hd : AllDigits d) (hne : d ≠ [])
    (h5 : 5 < natVal d) :
    parse_rating d = min 5 (max 1 (pyRound ((natVal d : ℚ) / 2))) := by
  have hnorm : pyLower (pyStrip d) = d := by
    rw [pyStrip_digits hd, pyLower_digits hd]
  have hno_o : ∀ c ∈ d, c ≠ 'o' := fun c hc => digit_ne (hd c hc) (by decide)
  have hno_star : ¬ '★' ∈ d := by
    intro hmem
    exact digit_ne (hd '★' hmem) (by decide) rfl
  have hno_slash : ¬ '/' ∈ d := by
    intro hmem
    exact digit_ne (hd '/' hmem) (by decide) rfl
  have h5q : (5 : ℚ) < ((natVal d : ℚ)) := by exact_mod_cast h5
  simp only [parse_rating, hnorm, if_neg hne, outOfBranch_eq_of_no_o hno_o,
    if_neg hno_star, slashBranch_eq_of_no_slash hno_slash,
    efn_digits_nil hd hne, if_pos h5q]

/-- Evaluation of `parse_rating` on text containing a star glyph (when the `out of` branch
does not return): the raw, unclamped glyph count. -/
lemma parse_rating_star {s : Str}
    (hstar : '★' ∈ pyLower (pyStrip s))
    (hoo : outOfBranch (pyLower (pyStrip s)) = none) :
    parse_rating s = (((pyLower (pyStrip s)).count '★' : ℕ) : ℤ) := by
  have hne : pyLower (pyStrip s) ≠ [] := List.ne_nil_of_mem hstar
  simp only [parse_rating, if_neg hne, hoo, if_pos hstar]

lemma pyStrip_blank {s : Str} (h : ∀ c ∈ s, isPySpace c = true) :
    pyStrip s = [] := by
  unfold pyStrip
  rw [dropWhile_all h]
  rfl

lemma parse_rating_blank {s : Str} (h : ∀ c ∈ s, isPySpace c = true) :
    parse_rating s = 5 := by
  have : pyLower (pyStrip s) = [] := by rw [pyStrip_blank h]; rfl
  simp [parse_rating, this]

lemma parse_rating_unparseable {s : Str}
    (h : ∀ c ∈ s, isDigitC c = false ∧ c ≠ '★') :
    parse_rating s = 5 := by
  have ht : ∀ c ∈ pyLower (pyStrip s), isDigitC c = false ∧ c ≠ '★' := by
    intro c hc
    obtain ⟨c0, hc0, rfl⟩ := List.mem_map.mp hc
    have hs0 := h c0 (mem_pyStrip hc0)
    exact ⟨pyLowerChar_not_digit hs0.1, pyLowerChar_ne_star hs0.2⟩
  by_cases hemp : pyLower (pyStrip s) = []
  · simp [parse_rating, hemp]
  · have hoo : outOfBranch (pyLower (pyStrip s)) = none := by
      unfold outOfBranch
      by_cases hcs : containsSub outOfSep (pyLower (pyStrip s)) = true
      · rw [if_pos hcs]
        cases hsp : pySplit 'o' ['u', 't', ' ', 'o', 'f'] (pyLower (pyStrip s)) with
        | nil => rfl
        | cons p0 ps =>
          cases ps with
          | nil => rfl
          | cons p1 ps2 =>
            have h0 : extract_first_number p0 = none :=
              efn_none fun c hc =>
                (ht c (pySplit_subset (p := p0)
                  (by rw [hsp]; exact List.mem_cons_self _ _) hc)).1
            have h1 : extract_first_number p1 = none :=
              efn_none fun c hc =>
                (ht c (pySplit_subset (p := p1)
                  (by rw [hsp]; exact List.mem_cons_of_mem _ (List.mem_cons_self _ _)) hc)).1
            simp [h0, h1]
      · rw [if_neg hcs]
    have hslash : slashBranch (pyLower (pyStrip s)) = none := by
      unfold slashBranch
      by_cases hsm : '/' ∈ pyLower (pyStrip s)
      · rw [if_pos hsm]
        cases hsp : pySplit '/' [] (pyLower (pyStrip s)) with
        | nil => rfl
        | cons p0 ps =>
          cases ps with
          | nil => rfl
          | cons p1 ps2 =>
            cases ps2 with
            | cons q qs => rfl
            | nil =>
              have h0 : pyFloat (pyStrip p0) = none :=
                pyFloat_none fun c hc =>
                  (ht c (pySplit_subset (p := p0)
                    (by rw [hsp]; exact List.mem_cons_self _ _) (mem_pyStrip hc))).1
              have h1 : pyFloat (pyStrip p1) = none :=
                pyFloat_none fun c hc =>
                  (ht c (pySplit_subset (p := p1)
                    (by rw [hsp]; exact List.mem_cons_of_mem _ (List.mem_cons_self _ _))
                    (mem_pyStrip hc))).1
              simp [h0, h1]
      · rw [if_neg hsm]
    have hstar : ¬ '★' ∈ pyLower (pyStrip s) := fun hm => (ht '★' hm).2 rfl
    have hefn : extract_first_number (pyLower (pyStrip s)) = none :=
      efn_none fun c hc => (ht c hc).1
    simp only [parse_rating, if_neg hemp, hoo, if_neg hstar, hslash, hefn]

lemma except_bind_ok {ε α β : Type} (a : α) (f : α → Except ε β) :
    (Except.ok a : Except ε α) >>= f = f a := rfl

lemma extractLoop_append (sels : ReviewSelectors) : ∀ l1 l2 : List Container,
    extractLoop sels (l1 ++ l2) = extractLoop sels l1 ++ extractLoop sels l2
  | [], l2 => rfl
  | c :: t, l2 => by
    have ih := extractLoop_append sels t l2
    cases h : extractOne sels c with
    | ok r => simp [extractLoop, h, ih]
    | error e => simp [extractLoop, h, ih]

lemma extractLoop_skip {sels : ReviewSelectors} (pre post : List Container)
    {bad : Container} (hbad : extractOne sels bad = Except.error ()) :
    extractLoop sels (pre ++ bad :: post) =
      extractLoop sels pre ++ extractLoop sels post := by
  rw [extractLoop_append]
  have : extractLoop sels (bad :: post) = extractLoop sels post := by
    simp [extractLoop, hbad]
  rw [this]

lemma extractOne_date_of_fields {sels : ReviewSelectors} {c : Container}
    {vt vr vb vrev vd : Option ExElem}
    (ht : selOpt c sels.title = Except.ok vt)
    (hr : selOpt c sels.rating = Except.ok vr)
    (hb : selOpt c sels.body = Except.ok vb)
    (hrev : selOpt c sels.reviewer = Except.ok vrev)
    (hd : selOpt c sels.date = Except.ok vd) :
    (extractOne sels c).map Review.date =
      Except.ok (vd.map fun e => pyStrip e.text) := by
  simp only [extractOne, ht, hr, hb, hrev, hd, except_bind_ok]
  rfl

lemma extractOne_rating_default {sels : ReviewSelectors} {c : Container}
    {vt vb vrev vd : Option ExElem}
    (ht : selOpt c sels.title = Except.ok vt)
    (hr : selOpt c sels.rating = Except.ok none)
    (hb : selOpt c sels.body = Except.ok vb)
    (hrev : selOpt c sels.reviewer = Except.ok vrev)
    (hd : selOpt c sels.date = Except.ok vd) :
    (extractOne sels c).map Review.rating = Except.ok 5 := by
  simp only [extractOne, ht, hr, hb, hrev, hd, except_bind_ok]
  have h5 : (if containsSub "judge.me".data (pyLower ['5']) then
      match judgeSearch ['5'] with
      | some g => g
      | none => ['5']
    else ['5']) = ['5'] := by decide
  simp only [h5]
  have : parse_rating ['5'] = 5 := by decide
  simp only [this]
  rfl

lemma crawl_loop_zero (site : Str → Except Unit RenderedPage)
    (sels : ReviewSelectors) (page : RenderedPage) (u : Str) :
    crawl_loop site sels 0 page u = ([], 0, []) := rfl

lemma crawl_loop_succ (site : Str → Except Unit RenderedPage)
    (sels : ReviewSelectors) (f : ℕ) (page : RenderedPage) (u : Str) :
    crawl_loop site sels (f + 1) page u =
      if u = [] then ([], 0, []) else
        match get_next_page_url page sels with
        | none => (extract_reviews_with_selectors page.doc sels, 0,
            [CrawlEv.extracted u])
        | some next_url =>
          if next_url = [] ∨ next_url = u then
            (extract_reviews_with_selectors page.doc sels, 0,
              [CrawlEv.extracted u])
          else
            match site next_url with
            | Except.error _ => (extract_reviews_with_selectors page.doc sels, 0,
                [CrawlEv.extracted u])
            | Except.ok page2 =>
              let rest := crawl_loop site sels f page2 next_url
              (extract_reviews_with_selectors page.doc sels ++ rest.1,
                rest.2.1 + 1,
                CrawlEv.extracted u :: CrawlEv.navigated next_url :: rest.2.2) := rfl

lemma crawl_loop_nav_count (site : Str → Except Unit RenderedPage)
    (sels : ReviewSelectors) : ∀ (f : ℕ) (page : RenderedPage) (u : Str),
    (crawl_loop site sels f page u).2.1 =
      List.countP isNavEv (crawl_loop site sels f page u).2.2
  | 0, _, _ => rfl
  | f + 1, page, u => by
    rw [crawl_loop_succ]
    by_cases hu : u = []
    · rw [if_pos hu]
      rfl
    · rw [if_neg hu]
      cases hnext : get_next_page_url page sels with
      | none => simp [List.countP_cons, isNavEv]
      | some next =>
        dsimp only
        by_cases hn : next = [] ∨ next = u
        · rw [if_pos hn]
          simp [List.countP_cons, isNavEv]
        · rw [if_neg hn]
          cases hsite : site next with
          | error e => simp [List.countP_cons, isNavEv]
          | ok page2 =>
            have ih := crawl_loop_nav_count site sels f page2 next
            simp [List.countP_cons, isNavEv, ih]

lemma crawl_loop_nav_le (site : Str → Except Unit RenderedPage)
    (sels : ReviewSelectors) : ∀ (f : ℕ) (page : RenderedPage) (u : Str),
    (crawl_loop site sels f page u).2.1 ≤ f
  | 0, _, _ => le_rfl
  | f + 1, page, u => by
    rw [crawl_loop_succ]
    by_cases hu : u = []
    · rw [if_pos hu]
      exact Nat.zero_le _
    · rw [if_neg hu]
      cases hnext : get_next_page_url page sels with
      | none => exact Nat.zero_le _
      | some next =>
        dsimp only
        by_cases hn : next = [] ∨ next = u
        · rw [if_pos hn]
          exact Nat.zero_le _
        · rw [if_neg hn]
          cases hsite : site next with
          | error e => exact Nat.zero_le _
          | ok page2 =>
            have ih := crawl_loop_nav_le site sels f page2 next
            simpa using Nat.add_le_add_right ih 1

lemma crawl_loop_one_events (site : Str → Except Unit RenderedPage)
    (sels : ReviewSelectors) (page : RenderedPage) (u : Str) :
    (∀ e ∈ (crawl_loop site sels 1 page u).2.2,
        isExtractEv e = true → e = CrawlEv.extracted u) ∧
      List.countP isNavEv (crawl_loop site sels 1 page u).2.2 ≤ 1 := by
  rw [show (1 : ℕ) = 0 + 1 from rfl, crawl_loop_succ]
  by_cases hu : u = []
  · rw [if_pos hu]
    exact ⟨fun e he => absurd he (List.not_mem_nil e), by simp⟩
  · rw [if_neg hu]
    cases hnext : get_next_page_url page sels with
    | none =>
      refine ⟨fun e he _ => ?_, by simp [List.countP_cons, isNavEv]⟩
      simpa using he
    | some next =>
      dsimp only
      by_cases hn : next = [] ∨ next = u
      · rw [if_pos hn]
        refine ⟨fun e he _ => ?_, by simp [List.countP_cons, isNavEv]⟩
        simpa using he
      · rw [if_neg hn]
        cases hsite : site next with
        | error e =>
          refine ⟨fun e he _ => ?_, by simp [List.countP_cons, isNavEv]⟩
          simpa using he
        | ok page2 =>
          constructor
          · intro e he hex
            rcases List.mem_cons.mp he with rfl | he2
            · rfl
            · rcases List.mem_cons.mp he2 with rfl | he3
              · cases hex
              · cases he3
          · simp [crawl_loop_zero, List.countP_cons, isNavEv]

lemma get_reviews_ok_elim {site : Str → Except Unit RenderedPage} {url : Str}
    {mp : ℤ} {res : CrawlResult} {tr : List CrawlEv}
    (h : get_reviews site url mp = Except.ok (res, tr)) :
    ∃ page, site url = Except.ok page ∧
      res.pages_processed =
        (crawl_loop site get_default_selectors mp.toNat page url).2.1 + 1 ∧
      res.reviews = (crawl_loop site get_default_selectors mp.toNat page url).1 ∧
      tr = (crawl_loop site get_default_selectors mp.toNat page url).2.2 := by
  unfold get_reviews at h
  cases hsite : site url with
  | error e => rw [hsite] at h; cases h
  | ok page =>
    rw [hsite] at h
    have h2 := Except.ok.inj h
    rw [Prod.mk.injEq] at h2
    obtain ⟨hres, htr⟩ := h2
    refine ⟨page, rfl, ?_, ?_, ?_⟩
    · rw [← hres]
    · rw [← hres]
    · rw [← htr]
example : parse_rating ("9".data) = 4 := by decide

example : parse_rating ("★★★★★★".data) = 6 := by decide

example : parse_rating ("★★★".data) = 3 := by decide

example : parse_rating ("1 out of 2".data) = 2 := by decide

example : parse_rating ("4 out of 5".data) = 4 := by decide

example : parse_rating ("7 out of 10".data) = 4 := by decide

example : parse_rating ("8/10".data) = 4 := by decide

example : parse_rating ("5".data) = 5 := by decide

example : parse_rating ("".data) = 5 := by decide

example : parse_rating ("  ".data) = 5 := by decide

example : parse_rating ("no rating here!".data) = 5 := by decide

example : parse_rating ("4.5 out of 10".data) = 2 := by decide

example :
    (get_reviews twoPageSite ("page1".data) 5).map
      (fun r => (r.1.reviews_count, r.1.pages_processed)) =
    Except.ok (5, 2) := by decide

example :
    (get_reviews twoPageSite ("page1".data) 1).map
      (fun r => (r.1.reviews_count, r.1.pages_processed, r.2)) =
    Except.ok (3, 2, [CrawlEv.extracted ("page1".data),
                      CrawlEv.navigated ("page2".data)]) := by decide

example :
    (get_reviews twoPageSite ("page1".data) 0).map
      (fun r => (r.1.reviews_count, r.1.pages_processed)) =
    Except.ok (0, 1) := by decide

example :
    (extract_reviews_with_selectors (Except.ok soupStar)
      get_default_selectors).map Review.rating = [6] := by decide

/-- C1: the claim says every record's rating lies in [1,5] regardless of
malformed rating text.  The code violates this: the star-glyph branch of
`parse_rating` returns the raw `text.count('★')` without the clamp that its
own docstring ("Returns: int: Rating value from 1-5") promises, so a rating
element containing six star glyphs produces a record with rating 6. -/
theorem C1_star_rating_out_of_range :
    parse_rating ("★★★★★★".data) = 6 ∧
    (extract_reviews_with_selectors (Except.ok soupStar)
      get_default_selectors).map Review.rating = [6] ∧
    ¬ ((6 : ℤ) ≤ 5) :=
  ⟨by decide, by decide, by decide⟩

/-- C2 (counterexample): with `max_pages = 1` on a two-page site the endpoint
reports `pages_processed = 2`, exceeding the configured maximum. -/
theorem C2_counterexample :
    (get_reviews twoPageSite ("page1".data) 1).map
      (fun r => r.1.pages_processed) = Except.ok 2 ∧
    ¬ ((2 : ℕ) ≤ 1) :=
  ⟨by decide, by decide⟩

/-- C2 (amended): `pages_processed` is at most `max_pages + 1` (with the
max taken against 0 for non-positive limits): the loop navigates to one page
beyond the allowed count before re-checking the bound, so the configured
maximum can be exceeded by exactly one. -/
theorem C2_pages_processed_bound (site : Str → Except Unit RenderedPage)
    (url : Str) (max_pages : ℤ) (res : CrawlResult) (tr : List CrawlEv)
    (h : get_reviews site url max_pages = Except.ok (res, tr)) :
    res.pages_processed ≤ max_pages.toNat + 1 := by
  obtain ⟨page, hsite, hpp, hrev, htr⟩ := get_reviews_ok_elim h
  rw [hpp]
  exact Nat.add_le_add_right
    (crawl_loop_nav_le site get_default_selectors _ page url) 1

/-- C2 (witness): the amended bound at the concrete two-page site. -/
theorem C2_pages_processed_bound_witness :
    get_reviews twoPageSite ("page1".data) 1 = Except.ok (crawlW1.1, crawlW1.2) ∧
    crawlW1.1.pages_processed ≤ (1 : ℤ).toNat + 1 :=
  ⟨by decide,
    C2_pages_processed_bound twoPageSite ("page1".data) 1 crawlW1.1 crawlW1.2
      (by decide)⟩

/-- C3 (counterexample): with `max_pages = 1` the orchestrator does navigate
to a second page (one `navigated` event occurs), contradicting "never renders
a second page and no navigation to a next-page URL occurs". -/
theorem C3_counterexample :
    (get_reviews twoPageSite ("page1".data) 1).map (fun r => r.2) =
      Except.ok [CrawlEv.extracted ("page1".data),
        CrawlEv.navigated ("page2".data)] ∧
    List.countP isNavEv [CrawlEv.extracted ("page1".data),
      CrawlEv.navigated ("page2".data)] = 1 ∧
    (1 : ℕ) ≠ 0 :=
  ⟨by decide, by decide, by decide⟩

/-- C3 (amended): with `max_pages = 1`, extraction runs only on the initial
page (every extraction event is on the initial URL), but the orchestrator may
perform one navigation to a next-page URL before terminating. -/
theorem C3_max_pages_one_extracts_initial_only
    (site : Str → Except Unit RenderedPage) (url : Str)
    (res : CrawlResult) (tr : List CrawlEv)
    (h : get_reviews site url 1 = Except.ok (res, tr)) :
    (∀ e ∈ tr, isExtractEv e = true → e = CrawlEv.extracted url) ∧
      List.countP isNavEv tr ≤ 1 := by
  obtain ⟨page, hsite, hpp, hrev, htr⟩ := get_reviews_ok_elim h
  rw [htr]
  exact crawl_loop_one_events site get_default_selectors page url

/-- C3 (witness): the amended statement at the concrete two-page site. -/
theorem C3_max_pages_one_witness :
    get_reviews twoPageSite ("page1".data) 1 = Except.ok (crawlW1.1, crawlW1.2) ∧
    (∀ e ∈ crawlW1.2, isExtractEv e = true →
      e = CrawlEv.extracted ("page1".data)) ∧
    List.countP isNavEv crawlW1.2 ≤ 1 :=
  ⟨by decide,
    (C3_max_pages_one_extracts_initial_only twoPageSite ("page1".data)
      crawlW1.1 crawlW1.2 (by decide)).1,
    (C3_max_pages_one_extracts_initial_only twoPageSite ("page1".data)
      crawlW1.1 crawlW1.2 (by decide)).2⟩

/-- C4 (counterexample): seven star glyphs normalize to 7, not to the claimed
clamp to [1,5] (which would be 5). -/
theorem C4_counterexample :
    parse_rating ("★★★★★★★".data) = 7 ∧
    min 5 (max 1 (7 : ℤ)) = 5 ∧
    (7 : ℤ) ≠ 5 :=
  ⟨by decide, by decide, by decide⟩

/-- C4 (amended): on input made of ASCII characters and star glyphs — the
fragment on which the embedding of Python's regex \d and of float() is
exact, so the model's "out of" branch fires exactly when the program's
does — text containing the star glyph and not resolved by the
higher-priority "out of" rule normalizes to the raw, unclamped count of
"★" glyphs; in particular it returns exactly k for 1 ≤ k ≤ 5 glyphs. -/
theorem C4_star_count (s : Str)
    (_hascii : ∀ c ∈ s, c.toNat ≤ 127 ∨ c = '★')
    (hstar : '★' ∈ pyLower (pyStrip s))
    (hoo : outOfBranch (pyLower (pyStrip s)) = none) :
    parse_rating s = (((pyLower (pyStrip s)).count '★' : ℕ) : ℤ) :=
  parse_rating_star hstar hoo

/-- C4 (witness): three star glyphs normalize to exactly 3. -/
theorem C4_star_count_witness :
    (∀ c ∈ ("★★★".data), c.toNat ≤ 127 ∨ c = '★') ∧
    '★' ∈ pyLower (pyStrip ("★★★".data)) ∧
    outOfBranch (pyLower (pyStrip ("★★★".data))) = none ∧
    parse_rating ("★★★".data) =
      (((pyLower (pyStrip ("★★★".data))).count '★' : ℕ) : ℤ) ∧
    parse_rating ("★★★".data) = 3 :=
  ⟨by decide, by decide, by decide,
    C4_star_count ("★★★".data) (by decide) (by decide) (by decide),
    by decide⟩

/-- C5 (counterexample): the input "9" normalizes to 4, not 5: Python's
`round` rounds ties to even, so `round(9/2) = round(4.5) = 4`, while the
claim (reading `round` as round-half-up) predicts 5. -/
theorem C5_counterexample :
    parse_rating ("9".data) = 4 ∧
    spec_round_half_up ((9 : ℚ) / 2) = 5 ∧
    parse_rating ("9".data) ≠ 5 :=
  ⟨by decide, by decide, by decide⟩

/-- C5 (amended): for a numeric-only (decimal-digit) input whose value
exceeds 5, the normalizer assumes a 10-point scale, halves the value, rounds
with Python's ties-to-even rounding and clamps to [1,5]; in particular "9"
normalizes to 4. -/
theorem C5_numeric_halving (d : Str) (hd : AllDigits d) (hne : d ≠ [])
    (h5 : 5 < natVal d) :
    parse_rating d = min 5 (max 1 (pyRound ((natVal d : ℚ) / 2))) :=
  parse_rating_numeric_gt5 hd hne h5

/-- C5 (witness): the amended statement at "9", whose value is 4. -/
theorem C5_numeric_halving_witness :
    AllDigits ("9".data) ∧ ("9".data ≠ []) ∧ 5 < natVal ("9".data) ∧
    parse_rating ("9".data) =
      min 5 (max 1 (pyRound ((natVal ("9".data) : ℚ) / 2))) ∧
    parse_rating ("9".data) = 4 :=
  ⟨by decide, by decide, by decide,
    C5_numeric_halving ("9".data) (by decide) (by decide) (by decide),
    by decide⟩

/-- C6 (counterexample): "1 out of 2" normalizes to 2, while the claim's
formula `clamp(round(N*5/M), 1, 5)` with the specification's round-half-up
(the spec computes round(9/2)=5) predicts `clamp(round(2.5)) = 3`. -/
theorem C6_counterexample :
    parse_rating ("1 out of 2".data) = 2 ∧
    min 5 (max 1 (spec_round_half_up ((1 : ℚ) * 5 / 2))) = 3 ∧
    (2 : ℤ) ≠ 3 :=
  ⟨by decide, by decide, by decide⟩

/-- C6 (amended): for "N out of M" with 0 < N ≤ M and for fractional "N/M"
with M > 0, both written as decimal numerals of at most 15 digits — the
range in which CPython float conversion and N*5 are exact (below 2^53) and,
since M < 2^50, the exact ratio N*5/M is never within half an ulp of a
rounding tie it does not equal, so rounding the computed double agrees with
rounding the exact rational — the normalizer returns
`clamp(pyRound(N*5/M), 1, 5)` where `pyRound` is Python's ties-to-even
rounding; e.g. "4 out of 5" → 4, "8/10" → 4, but "1 out of 2" → 2. -/
theorem C6_scale_formula :
    (∀ dN dM : Str, AllDigits dN → AllDigits dM → dN ≠ [] → dM ≠ [] →
      dN.length ≤ 15 → dM.length ≤ 15 →
      0 < natVal dN → natVal dN ≤ natVal dM →
      parse_rating (dN ++ " out of ".data ++ dM) =
        min 5 (max 1 (pyRound ((natVal dN : ℚ) * 5 / (natVal dM : ℚ))))) ∧
    (∀ dN dM : Str, AllDigits dN → AllDigits dM → dN ≠ [] → dM ≠ [] →
      dN.length ≤ 15 → dM.length ≤ 15 →
      0 < natVal dM →
      parse_rating (dN ++ "/".data ++ dM) =
        min 5 (max 1 (pyRound ((natVal dN : ℚ) * 5 / (natVal dM : ℚ))))) := by
  constructor
  · intro dN dM h1 h2 h3 h4 _ _ h5 h6
    exact parse_rating_out_of h1 h2 h3 h4 (lt_of_lt_of_le h5 h6)
  · intro dN dM h1 h2 h3 h4 _ _ h5
    exact parse_rating_slash h1 h2 h3 h4 h5

/-- C6 (witness): "4 out of 5" → 4 and "8/10" → 4, both via the theorem. -/
theorem C6_scale_formula_witness :
    parse_rating ("4".data ++ " out of ".data ++ "5".data) =
      min 5 (max 1 (pyRound ((natVal ("4".data) : ℚ) * 5 /
        (natVal ("5".data) : ℚ)))) ∧
    parse_rating ("8".data ++ "/".data ++ "10".data) =
      min 5 (max 1 (pyRound ((natVal ("8".data) : ℚ) * 5 /
        (natVal ("10".data) : ℚ)))) ∧
    parse_rating ("4 out of 5".data) = 4 ∧
    parse_rating ("8/10".data) = 4 :=
  ⟨C6_scale_formula.1 ("4".data) ("5".data) (by decide) (by decide)
      (by decide) (by decide) (by decide) (by decide) (by decide) (by decide),
    C6_scale_formula.2 ("8".data) ("10".data) (by decide) (by decide)
      (by decide) (by decide) (by decide) (by decide) (by decide),
    by decide, by decide⟩

/-- C7: the normalizer is total in the embedding (every exception path of the
source returns the default), and both blank input and ASCII input with no
digit yield the default 5.  On ASCII input, "no digit" coincides with
Python's "no numeric token" (the regex \d and float() match no digit
there, and the star glyph, three bytes above ASCII, cannot occur). -/
theorem C7_default_five :
    (∀ s : Str, (∀ c ∈ s, isPySpace c = true) → parse_rating s = 5) ∧
    (∀ s : Str, (∀ c ∈ s, c.toNat ≤ 127 ∧ isDigitC c = false) →
      parse_rating s = 5) :=
  ⟨fun _ h => parse_rating_blank h,
    fun _ h => parse_rating_unparseable fun c hc =>
      ⟨(h c hc).2, fun e => by
        have hle := (h c hc).1
        rw [e] at hle
        exact absurd hle (by decide)⟩⟩

/-- C7 (witness): a blank string and a digit-free, star-free string both
normalize to 5. -/
theorem C7_default_five_witness :
    (∀ c ∈ ("  ".data), isPySpace c = true) ∧
    (∀ c ∈ ("no rating here!".data), c.toNat ≤ 127 ∧ isDigitC c = false) ∧
    parse_rating ("  ".data) = 5 ∧
    parse_rating ("no rating here!".data) = 5 :=
  ⟨by decide, by decide, C7_default_five.1 ("  ".data) (by decide),
    C7_default_five.2 ("no rating here!".data) (by decide)⟩

/-- C8: failure containment of the extractor: a document-level parse failure
or failing container query yields the empty list; a container whose
extraction fails is skipped while all sibling containers (before and after
it, in order) are still extracted; and a container whose optional date field
has no match still yields a record with the date absent. -/
theorem C8_failure_containment :
    (∀ sels : ReviewSelectors,
      extract_reviews_with_selectors (Except.error ()) sels = []) ∧
    (∀ (sels : ReviewSelectors) (soup : Soup),
      soup.select sels.container = Except.error () →
      extract_reviews_with_selectors (Except.ok soup) sels = []) ∧
    (∀ (sels : ReviewSelectors) (soup : Soup) (pre post : List Container)
        (bad : Container),
      soup.select sels.container = Except.ok (pre ++ bad :: post) →
      extractOne sels bad = Except.error () →
      extract_reviews_with_selectors (Except.ok soup) sels =
        extractLoop sels pre ++ extractLoop sels post) ∧
    (∀ (sels : ReviewSelectors) (c : Container) (vt vr vb vrev : Option ExElem),
      selOpt c sels.title = Except.ok vt →
      selOpt c sels.rating = Except.ok vr →
      selOpt c sels.body = Except.ok vb →
      selOpt c sels.reviewer = Except.ok vrev →
      selOpt c sels.date = Except.ok none →
      (extractOne sels c).map Review.date = Except.ok none) := by
  refine ⟨fun _ => rfl, ?_, ?_, ?_⟩
  · intro sels soup hsel
    unfold extract_reviews_with_selectors
    dsimp only
    rw [hsel]
  · intro sels soup pre post bad hsel hbad
    unfold extract_reviews_with_selectors
    dsimp only
    rw [hsel]
    exact extractLoop_skip pre post hbad
  · intro sels c vt vr vb vrev ht hr hb hrev hd
    have h := extractOne_date_of_fields ht hr hb hrev hd
    simpa using h

/-- C8 (witness): on the concrete soup whose middle container fails, only the
two sibling containers are extracted; a raising container query and a
document-level failure give the empty list; and a container with no date
match yields a record with no date. -/
theorem C8_failure_containment_witness :
    extract_reviews_with_selectors (Except.error ()) get_default_selectors = [] ∧
    extract_reviews_with_selectors (Except.ok soupErr) get_default_selectors = [] ∧
    extract_reviews_with_selectors (Except.ok soupIso) get_default_selectors =
      extractLoop get_default_selectors [cAlice] ++
        extractLoop get_default_selectors [cBob] ∧
    (extractOne get_default_selectors cBob).map Review.date = Except.ok none :=
  ⟨C8_failure_containment.1 get_default_selectors,
    C8_failure_containment.2.1 get_default_selectors soupErr rfl,
    C8_failure_containment.2.2.1 get_default_selectors soupIso [cAlice] [cBob]
      cFailTitle rfl (by decide),
    C8_failure_containment.2.2.2 get_default_selectors cBob
      (some ⟨"Okay".data⟩) (some ⟨"8/10".data⟩) (some ⟨"Decent".data⟩)
      (some ⟨"Bob".data⟩) rfl rfl rfl rfl rfl⟩

/-- C9: when the rating selector is absent or matches no element, the
extractor normalizes the literal text "5", so the produced record's rating
is 5 (provided the other lookups do not raise, which they must not for a
record to be produced at all). -/
theorem C9_missing_rating_defaults_to_five
    (sels : ReviewSelectors) (c : Container) (vt vb vrev vd : Option ExElem)
    (ht : selOpt c sels.title = Except.ok vt)
    (hr : selOpt c sels.rating = Except.ok none)
    (hb : selOpt c sels.body = Except.ok vb)
    (hrev : selOpt c sels.reviewer = Except.ok vrev)
    (hd : selOpt c sels.date = Except.ok vd) :
    (extractOne sels c).map Review.rating = Except.ok 5 :=
  extractOne_rating_default ht hr hb hrev hd

/-- C9 (witness): the rating defaults to 5 both for a container whose rating
selector matches nothing and under a selector set with no rating selector. -/
theorem C9_missing_rating_defaults_to_five_witness :
    (extractOne get_default_selectors cDefaults).map Review.rating =
      Except.ok 5 ∧
    (extractOne selsNoRating cAlice).map Review.rating = Except.ok 5 :=
  ⟨C9_missing_rating_defaults_to_five get_default_selectors cDefaults
      none none none none rfl rfl rfl rfl rfl,
    C9_missing_rating_defaults_to_five selsNoRating cAlice
      (some ⟨"Great".data⟩) (some ⟨"Loved it".data⟩) (some ⟨"Alice".data⟩)
      (some ⟨"2024-01-01".data⟩) rfl rfl rfl rfl rfl⟩

/-- C10: `pages_processed` equals one plus the number of completed next-page
navigations, and a non-positive `max_pages` skips the loop entirely, yielding
`pages_processed = 1` and an empty record list. -/
theorem C10_pages_processed_counts_navigations
    (site : Str → Except Unit RenderedPage) (url : Str) (mp : ℤ)
    (res : CrawlResult) (tr : List CrawlEv)
    (h : get_reviews site url mp = Except.ok (res, tr)) :
    res.pages_processed = 1 + List.countP isNavEv tr ∧
      (mp ≤ 0 → res.pages_processed = 1 ∧ res.reviews = []) := by
  obtain ⟨page, hsite, hpp, hrev, htr⟩ := get_reviews_ok_elim h
  constructor
  · rw [hpp, htr, ← crawl_loop_nav_count]
    omega
  · intro hmp
    have h0 : mp.toNat = 0 := Int.toNat_of_nonpos hmp
    rw [h0, crawl_loop_zero] at hpp hrev
    exact ⟨hpp, hrev⟩

/-- C10 (witness): at the concrete two-page site with `max_pages = 0` the
loop never runs: `pages_processed = 1`, no reviews, no navigations. -/
theorem C10_pages_processed_counts_navigations_witness :
    get_reviews twoPageSite ("page1".data) 0 = Except.ok (crawlW0.1, crawlW0.2) ∧
    crawlW0.1.pages_processed = 1 + List.countP isNavEv crawlW0.2 ∧
    ((0 : ℤ) ≤ 0 → crawlW0.1.pages_processed = 1 ∧ crawlW0.1.reviews = []) :=
  ⟨by decide,
    (C10_pages_processed_counts_navigations twoPageSite ("page1".data) 0
      crawlW0.1 crawlW0.2 (by decide)).1,
    (C10_pages_processed_counts_navigations twoPageSite ("page1".data) 0
      crawlW0.1 crawlW0.2 (by decide)).2⟩
